import Mathlib

/-!
Verification of the RxVerify feedback-driven ranking and voting subsystem.

The frontend voting client is embedded from src/unnamed/part_001 (app.js:
voteOnDrug, verifyVoteStatus).  The backend vote ledger, rating aggregator
and ranking pipeline have no Python sources in src/; they are modelled from
the spec together with the repository's own design documents
(src/voting_system_diagram.md, src/unnamed/part_008), which the claims cite
as their code sources.
-/

namespace RxVerify

/-- Vote values: "upvote" / "downvote" in the JSON protocol. -/
inductive VoteValue
  | up
  | down
deriving DecidableEq, Repr

/-- Wire encoding of a vote value, as interpolated into request URLs
(part_001: vote_type=upvote / vote_type=downvote). -/
def voteTypeStr : VoteValue → String
  | .up => "upvote"
  | .down => "downvote"

/-- Association-list lookup by string key (first match). -/
def lookupKey {β : Type} : List (String × β) → String → Option β
  | [], _ => none
  | (k, v) :: rest, key => if k = key then some v else lookupKey rest key

/-- Association-list insert-or-update by string key (replaces the first
binding of the key, appends when absent). -/
def setKey {β : Type} : List (String × β) → String → β → List (String × β)
  | [], k, v => [(k, v)]
  | (k', v') :: rest, k, v =>
      if k' = k then (k, v) :: rest else (k', v') :: setKey rest k v

/-- Association-list removal by string key (removes the first binding). -/
def removeKey {β : Type} : List (String × β) → String → List (String × β)
  | [], _ => []
  | (k', v') :: rest, k => if k' = k then rest else (k', v') :: removeKey rest k

/-- Response of GET /drugs/vote-status as the frontend consumes it
(part_001 verifyVoteStatus). -/
structure VoteStatus where
  has_voted : Bool
  vote_type : Option VoteValue
deriving DecidableEq, Repr

/-- Outcome of the HTTP call underlying verifyVoteStatus: a 2xx response
with a body, a non-OK response, or a thrown fetch error. -/
inductive StatusResp
  | ok (has_voted : Bool) (vote_type : Option VoteValue)
  | httpError
  | networkError
deriving DecidableEq, Repr

/-- Frontend verifyVoteStatus (part_001 lines 1159-1183): on a non-OK
response or a thrown error it returns has_voted false / vote_type null,
allowing the vote to proceed. -/
def verifyVoteStatus : StatusResp → VoteStatus
  | .ok hv vt => ⟨hv, vt⟩
  | .httpError => ⟨false, none⟩
  | .networkError => ⟨false, none⟩

/-- Requests the frontend sends to the backend:
GET /drugs/vote-status?drug_id=... and
POST /drugs/vote?drug_id=...&vote_type=...&is_unvote=... -/
inductive BackendReq
  | voteStatus (drugId : String)
  | vote (drugId : String) (voteType : VoteValue) (isUnvote : Bool)
deriving DecidableEq, Repr

/-- Client-side state of the voting UI (part_001 constructor):
voteStates is the localStorage cache drugId -> current vote,
voteCooldowns maps cooldown keys to the last accepted vote time in ms. -/
structure ClientState where
  voteStates : List (String × VoteValue)
  voteCooldowns : List (String × Int)
deriving Repr

/-- Cooldown key from part_001 line 1010: drugId ++ "_" ++ voteType. -/
def cooldownKey (drugId : String) (voteType : VoteValue) : String :=
  drugId ++ "_" ++ voteTypeStr voteType

/-- Cooldown test from part_001 lines 1014-1020: active when the key was
voted on less than 2000 ms before now. -/
def cooldownActive (s : ClientState) (drugId : String) (voteType : VoteValue)
    (now : Int) : Bool :=
  match lookupKey s.voteCooldowns (cooldownKey drugId voteType) with
  | some lastVote => decide (now - lastVote < 2000)
  | none => false

/-- Frontend voteOnDrug (part_001 lines 1003-1146), as a pure transition:
it first awaits verifyVoteStatus (the vote-status request is always sent),
then returns early when the cooldown is active, otherwise classifies the
click as unvote / switch / regular vote, updates the localStorage cache and
the cooldown map, and issues the corresponding POST /drugs/vote requests
(for a switch: an unvote of the old value followed by a vote of the new).
Returns the updated client state and the full request trace. -/
def voteOnDrug (s : ClientState) (drugId : String) (voteType : VoteValue)
    (now : Int) (backendStatus : VoteStatus) : ClientState × List BackendReq :=
  let statusReq : List BackendReq := [BackendReq.voteStatus drugId]
  if cooldownActive s drugId voteType now then
    (s, statusReq)
  else
    let currentVote : Option VoteValue :=
      if backendStatus.has_voted then backendStatus.vote_type else none
    let isUnvote : Bool := currentVote = some voteType
    let voteStates' :=
      if isUnvote then removeKey s.voteStates drugId
      else setKey s.voteStates drugId voteType
    let cooldowns' := setKey s.voteCooldowns (cooldownKey drugId voteType) now
    let reqs : List BackendReq :=
      if isUnvote then [BackendReq.vote drugId voteType true]
      else
        match currentVote with
        | some cv => [BackendReq.vote drugId cv true,
                      BackendReq.vote drugId voteType false]
        | none => [BackendReq.vote drugId voteType false]
    (⟨voteStates', cooldowns'⟩, statusReq ++ reqs)

/-! ## Backend vote ledger and rating aggregator

Modelled from the spec (sections 4.2 and 4.3) and the repository's design
documents: src/voting_system_diagram.md lines 54-72 and 129-134 (counter
updates and rating recomputation on each vote mutation) and
src/unnamed/part_008 lines 104-116 (MongoDB vote insert + drug document
update).  The Python DrugRatingService itself is not under src/. -/

/-- Per-item denormalized rating counters, as stored on the drug document
(upvotes, downvotes, total_votes, rating_score). -/
structure Rating where
  upvotes : Int
  downvotes : Int
  total_votes : Int
  rating_score : ℚ
deriving DecidableEq, Repr

/-- Modelled from the spec: rating_score recomputation rule of the Rating
Aggregator, (upvotes - downvotes) / total_votes when total_votes > 0,
else 0.  The design doc's concrete transitions (0 -> 1.0 after one upvote,
0 -> -1.0 after one downvote, -1.0 at 5 downvotes of 5 votes) agree. -/
def computeRatingScore (u d t : Int) : ℚ :=
  if 0 < t then ((u : ℚ) - (d : ℚ)) / (t : ℚ) else 0

/-- Pack counters together with the recomputed score. -/
def recompute (u d t : Int) : Rating :=
  ⟨u, d, t, computeRatingScore u d t⟩

/-- Contribution of one vote value to the (upvotes, downvotes) counters. -/
def voteDelta : VoteValue → Int × Int
  | .up => (1, 0)
  | .down => (0, 1)

/-- Backend state for one item: the active votes keyed by identity token,
plus the denormalized rating counters. -/
structure ItemState where
  votes : List (String × VoteValue)
  rating : Rating
deriving DecidableEq, Repr

/-- A freshly catalogued item: no votes, all rating fields zero. -/
def initItem : ItemState := ⟨[], ⟨0, 0, 0, 0⟩⟩

/-- Ledger operation outcomes of the spec's closed tagged union. -/
inductive Outcome
  | created
  | switched
  | unchanged
  | removed
  | notFound
deriving DecidableEq, Repr

/-- Modelled from the spec: Vote Ledger cast_or_update plus the Rating
Aggregator transition (spec 4.2/4.3).  No prior vote: create it and
increment the matching counter and the total.  Prior vote with a different
value: overwrite in place, decrement the old counter, increment the new,
total unchanged.  Prior vote with the same value: idempotent no-op.
The rating score is recomputed on every mutation. -/
def castOrUpdate (s : ItemState) (uid : String) (v : VoteValue) :
    ItemState × Outcome :=
  match lookupKey s.votes uid with
  | none =>
      let du := (voteDelta v).1
      let dd := (voteDelta v).2
      (⟨(uid, v) :: s.votes,
        recompute (s.rating.upvotes + du) (s.rating.downvotes + dd)
          (s.rating.total_votes + 1)⟩, .created)
  | some old =>
      if old = v then (s, .unchanged)
      else
        (⟨setKey s.votes uid v,
          recompute (s.rating.upvotes - (voteDelta old).1 + (voteDelta v).1)
            (s.rating.downvotes - (voteDelta old).2 + (voteDelta v).2)
            s.rating.total_votes⟩, .switched)

/-- Modelled from the spec: Vote Ledger retract plus the Rating Aggregator
transition (spec 4.2/4.3, and the unvote step of the design doc's vote
switching flow): remove the vote record, decrement the counter matching the
removed vote's value and the total, recompute the score; retracting an
absent vote is a no-op. -/
def retractVote (s : ItemState) (uid : String) : ItemState × Outcome :=
  match lookupKey s.votes uid with
  | none => (s, .notFound)
  | some old =>
      (⟨removeKey s.votes uid,
        recompute (s.rating.upvotes - (voteDelta old).1)
          (s.rating.downvotes - (voteDelta old).2)
          (s.rating.total_votes - 1)⟩, .removed)

/-- A vote mutation on one item, by identity token. -/
inductive LedgerOp
  | cast (uid : String) (v : VoteValue)
  | retract (uid : String)
deriving DecidableEq, Repr

/-- State transition of one ledger operation. -/
def applyOp (s : ItemState) : LedgerOp → ItemState
  | .cast uid v => (castOrUpdate s uid v).1
  | .retract uid => (retractVote s uid).1

/-- Run a sequence of vote mutations from the initial item state. -/
def runOps (ops : List LedgerOp) : ItemState :=
  ops.foldl applyOp initItem

/-- Backend processing of one frontend request against one item's state,
for the identity the backend resolves for the client: a vote-status read
leaves the state unchanged; POST /drugs/vote applies an unvote (retract) or
a cast depending on is_unvote (design doc, backend process). -/
def applyReq (s : ItemState) (uid : String) : BackendReq → ItemState
  | .voteStatus _ => s
  | .vote _ v false => (castOrUpdate s uid v).1
  | .vote _ _ true => (retractVote s uid).1

/-- Backend processing of a request trace. -/
def applyReqs (s : ItemState) (uid : String) (reqs : List BackendReq) :
    ItemState :=
  reqs.foldl (fun st r => applyReq st uid r) s

/-- Number of active votes with a given value. -/
def countVal (votes : List (String × VoteValue)) (v : VoteValue) : Nat :=
  (votes.filter (fun p => decide (p.2 = v))).length

/-- Key uniqueness of the vote ledger: at most one active vote per
(item, identity) pair. -/
def nodupKeys {β : Type} : List (String × β) → Bool
  | [] => true
  | (k, _) :: rest => (lookupKey rest k).isNone && nodupKeys rest

/-- Full per-item invariant: counters agree with the surviving votes,
the total is the sum, the score is the recomputation rule, and keys are
unique. -/
def Inv (s : ItemState) : Prop :=
  s.rating.upvotes = (countVal s.votes .up : Int) ∧
  s.rating.downvotes = (countVal s.votes .down : Int) ∧
  s.rating.total_votes = s.rating.upvotes + s.rating.downvotes ∧
  s.rating.rating_score =
    computeRatingScore s.rating.upvotes s.rating.downvotes
      s.rating.total_votes ∧
  nodupKeys s.votes = true

/-! ## Association-list lemmas -/

theorem lookupKey_setKey_self {β : Type} (l : List (String × β)) (k : String)
    (v : β) : lookupKey (setKey l k v) k = some v := by
  induction l with
  | nil => simp [setKey, lookupKey]
  | cons p rest ih =>
      obtain ⟨k', v'⟩ := p
      by_cases h : k' = k
      · simp [setKey, h, lookupKey]
      · simp [setKey, h, lookupKey, ih]

theorem lookupKey_setKey_ne {β : Type} (l : List (String × β)) (k k' : String)
    (v : β) (h : k' ≠ k) :
    lookupKey (setKey l k v) k' = lookupKey l k' := by
  induction l with
  | nil => simp [setKey, lookupKey, Ne.symm h]
  | cons p rest ih =>
      obtain ⟨k₀, v₀⟩ := p
      by_cases hk : k₀ = k
      · subst hk
        simp [setKey, lookupKey, Ne.symm h]
      · simp [setKey, hk, lookupKey, ih]

theorem lookupKey_removeKey_ne {β : Type} (l : List (String × β))
    (k k' : String) (h : k' ≠ k) :
    lookupKey (removeKey l k) k' = lookupKey l k' := by
  induction l with
  | nil => simp [removeKey]
  | cons p rest ih =>
      obtain ⟨k₀, v₀⟩ := p
      by_cases hk : k₀ = k
      · subst hk
        simp [removeKey, lookupKey, Ne.symm h]
      · simp [removeKey, hk, lookupKey, ih]

theorem lookupKey_removeKey_self {β : Type} (l : List (String × β))
    (k : String) (h : nodupKeys l = true) :
    lookupKey (removeKey l k) k = none := by
  induction l with
  | nil => simp [removeKey, lookupKey]
  | cons p rest ih =>
      obtain ⟨k₀, v₀⟩ := p
      simp only [nodupKeys, Bool.and_eq_true, Option.isNone_iff_eq_none] at h
      by_cases hk : k₀ = k
      · subst hk
        simpa [removeKey] using h.1
      · simp [removeKey, hk, lookupKey, ih h.2]

theorem nodupKeys_setKey {β : Type} (l : List (String × β)) (k : String)
    (v : β) (h : nodupKeys l = true) : nodupKeys (setKey l k v) = true := by
  induction l with
  | nil => simp [setKey, nodupKeys, lookupKey]
  | cons p rest ih =>
      obtain ⟨k₀, v₀⟩ := p
      simp only [nodupKeys, Bool.and_eq_true, Option.isNone_iff_eq_none] at h
      by_cases hk : k₀ = k
      · subst hk
        simp only [setKey, if_pos rfl, nodupKeys, Bool.and_eq_true,
          Option.isNone_iff_eq_none]
        exact ⟨h.1, h.2⟩
      · simp only [setKey, if_neg hk, nodupKeys, Bool.and_eq_true,
          Option.isNone_iff_eq_none]
        refine ⟨?_, ih h.2⟩
        rw [lookupKey_setKey_ne rest k k₀ v hk]
        exact h.1

theorem nodupKeys_removeKey {β : Type} (l : List (String × β)) (k : String)
    (h : nodupKeys l = true) : nodupKeys (removeKey l k) = true := by
  induction l with
  | nil => simp [removeKey, nodupKeys]
  | cons p rest ih =>
      obtain ⟨k₀, v₀⟩ := p
      simp only [nodupKeys, Bool.and_eq_true, Option.isNone_iff_eq_none] at h
      by_cases hk : k₀ = k
      · simp [removeKey, hk, h.2]
      · simp only [removeKey, if_neg hk, nodupKeys, Bool.and_eq_true,
          Option.isNone_iff_eq_none]
        refine ⟨?_, ih h.2⟩
        rw [lookupKey_removeKey_ne rest k k₀ hk]
        exact h.1

theorem countVal_cons (k : String) (v w : VoteValue)
    (l : List (String × VoteValue)) :
    countVal ((k, v) :: l) w = countVal l w + (if v = w then 1 else 0) := by
  by_cases h : v = w <;> simp [countVal, List.filter_cons, h]

theorem countVal_setKey (l : List (String × VoteValue)) (k : String)
    (old v w : VoteValue) (hl : lookupKey l k = some old) :
    countVal (setKey l k v) w + (if old = w then 1 else 0) =
      countVal l w + (if v = w then 1 else 0) := by
  induction l with
  | nil => simp [lookupKey] at hl
  | cons p rest ih =>
      obtain ⟨k₀, v₀⟩ := p
      by_cases hk : k₀ = k
      · subst hk
        have hv : v₀ = old := by simpa [lookupKey] using hl
        subst hv
        have hs : setKey ((k₀, v₀) :: rest) k₀ v = (k₀, v) :: rest := by
          simp [setKey]
        rw [hs, countVal_cons, countVal_cons]
        omega
      · simp only [lookupKey, if_neg hk] at hl
        simp only [setKey, if_neg hk, countVal_cons]
        have := ih hl
        omega

theorem countVal_removeKey (l : List (String × VoteValue)) (k : String)
    (old w : VoteValue) (hl : lookupKey l k = some old) :
    countVal (removeKey l k) w + (if old = w then 1 else 0) = countVal l w := by
  induction l with
  | nil => simp [lookupKey] at hl
  | cons p rest ih =>
      obtain ⟨k₀, v₀⟩ := p
      by_cases hk : k₀ = k
      · subst hk
        have hv : v₀ = old := by simpa [lookupKey] using hl
        subst hv
        have hs : removeKey ((k₀, v₀) :: rest) k₀ = rest := by
          simp [removeKey]
        rw [hs, countVal_cons]
      · simp only [lookupKey, if_neg hk] at hl
        simp only [removeKey, if_neg hk, countVal_cons]
        have := ih hl
        omega

/-! ## Invariant preservation -/

theorem inv_initItem : Inv initItem := by
  refine ⟨rfl, rfl, rfl, ?_, rfl⟩
  simp [initItem, computeRatingScore]

theorem inv_castOrUpdate (s : ItemState) (uid : String) (v : VoteValue)
    (h : Inv s) : Inv (castOrUpdate s uid v).1 := by
  obtain ⟨h1, h2, h3, h4, h5⟩ := h
  unfold castOrUpdate
  cases hl : lookupKey s.votes uid with
  | none =>
      refine ⟨?_, ?_, ?_, rfl, ?_⟩
      · cases v <;>
          simp only [recompute, voteDelta, countVal_cons, h1] <;> push_cast <;> omega
      · cases v <;>
          simp only [recompute, voteDelta, countVal_cons, h2] <;> push_cast <;> omega
      · cases v <;> simp only [recompute, voteDelta] <;> omega
      · simp only [nodupKeys, Bool.and_eq_true, Option.isNone_iff_eq_none]
        exact ⟨hl, h5⟩
  | some old =>
      by_cases he : old = v
      · simpa [he] using ⟨h1, h2, h3, h4, h5⟩
      · simp only [if_neg he]
        refine ⟨?_, ?_, ?_, rfl, ?_⟩
        · have hc := countVal_setKey s.votes uid old v .up hl
          cases old <;> cases v <;> simp_all [recompute, voteDelta] <;> push_cast <;> omega
        · have hc := countVal_setKey s.votes uid old v .down hl
          cases old <;> cases v <;> simp_all [recompute, voteDelta] <;> push_cast <;> omega
        · cases old <;> cases v <;> simp_all [recompute, voteDelta] <;> omega
        · exact nodupKeys_setKey s.votes uid v h5

theorem inv_retractVote (s : ItemState) (uid : String) (h : Inv s) :
    Inv (retractVote s uid).1 := by
  obtain ⟨h1, h2, h3, h4, h5⟩ := h
  unfold retractVote
  cases hl : lookupKey s.votes uid with
  | none => exact ⟨h1, h2, h3, h4, h5⟩
  | some old =>
      refine ⟨?_, ?_, ?_, rfl, ?_⟩
      · have hc := countVal_removeKey s.votes uid old .up hl
        cases old <;> simp_all [recompute, voteDelta] <;> push_cast <;> omega
      · have hc := countVal_removeKey s.votes uid old .down hl
        cases old <;> simp_all [recompute, voteDelta] <;> push_cast <;> omega
      · cases old <;> simp_all [recompute, voteDelta] <;> omega
      · exact nodupKeys_removeKey s.votes uid h5

theorem inv_applyOp (s : ItemState) (op : LedgerOp) (h : Inv s) :
    Inv (applyOp s op) := by
  cases op with
  | cast uid v => exact inv_castOrUpdate s uid v h
  | retract uid => exact inv_retractVote s uid h

theorem inv_runOps (ops : List LedgerOp) : Inv (runOps ops) := by
  have main : ∀ (l : List LedgerOp) (s : ItemState), Inv s →
      Inv (l.foldl applyOp s) := by
    intro l
    induction l with
    | nil => intro s hs; exact hs
    | cons op rest ih =>
        intro s hs
        exact ih (applyOp s op) (inv_applyOp s op hs)
  exact main ops initItem inv_initItem

/-! ## Ranking engine

Modelled from the spec (section 4.4 and 6) and the repository's design
documents: the scoring formula of src/voting_system_diagram.md lines
215-226 and src/unnamed/part_008 lines 42-51 (MongoDB aggregation
pipeline: relevance score terms, then sort by relevance_score descending
and search_count descending), and the auto-hide thresholds of
src/unnamed/part_008 lines 229-232.  The Python DrugDatabaseManager
aggregation code itself is not under src/. -/

/-- Drug type tiers of the scoring formula: generic (Primary), brand
(Secondary), combination (Compound). -/
inductive DrugType
  | generic
  | brand
  | combination
deriving DecidableEq, Repr

/-- A ranked candidate: display name, type tier, denormalized vote fields
and the search_count used by the pipeline's secondary sort key. -/
structure Item where
  name : String
  dtype : DrugType
  rating_score : ℚ
  total_votes : Int
  search_count : Int
deriving DecidableEq, Repr

/-- Ranking configuration (spec section 6): every numeric constant of the
scoring formula. -/
structure RankingConfig where
  base_score : ℚ
  start_bonus : ℚ
  wGeneric : ℚ
  wBrand : ℚ
  wCombination : ℚ
  vote_multiplier : ℚ
  social_proof_bonus : ℚ
  vote_confidence_threshold : Int
  hide_rating_threshold : ℚ
  hide_confidence_threshold : Int
deriving DecidableEq, Repr

/-- The constants documented in src/voting_system_diagram.md lines 215-226
and src/unnamed/part_008 lines 229-232: base 50, name-start bonus 50,
type weights 30/20/10, vote multiplier 25, social proof 10 at 5 or more
votes, hiding at rating at most -0.5 with at least 3 votes. -/
def defaultConfig : RankingConfig :=
  ⟨50, 50, 30, 20, 10, 25, 10, 5, -(1 / 2), 3⟩

/-- Category weight of a type tier. -/
def typeWeight (c : RankingConfig) : DrugType → ℚ
  | .generic => c.wGeneric
  | .brand => c.wBrand
  | .combination => c.wCombination

/-- Case-insensitive test that the candidate's name starts with the query
(the "drug starts with query" bonus condition). -/
def startsWithLower : List Char → List Char → Bool
  | [], _ => true
  | _ :: _, [] => false
  | q :: qs, c :: cs => decide (q.toLower = c.toLower) && startsWithLower qs cs

/-- The query is a case-insensitive beginning of the item's display name. -/
def matchesStart (query name : String) : Bool :=
  startsWithLower query.data name.data

/-- Relevance score of one candidate (design doc scoring formula):
base + name-start bonus + type weight + rating_score * multiplier
+ social proof bonus when total_votes reaches the confidence threshold. -/
def relevanceScore (c : RankingConfig) (query : String) (it : Item) : ℚ :=
  c.base_score
    + (if matchesStart query it.name then c.start_bonus else 0)
    + typeWeight c it.dtype
    + it.rating_score * c.vote_multiplier
    + (if c.vote_confidence_threshold ≤ it.total_votes
        then c.social_proof_bonus else 0)

/-- Auto-hide test: rating_score at most the hide threshold and enough
votes to trust it. -/
def isHidden (c : RankingConfig) (it : Item) : Bool :=
  decide (it.rating_score ≤ c.hide_rating_threshold) &&
    decide (c.hide_confidence_threshold ≤ it.total_votes)

/-- The pipeline's ordering (src/unnamed/part_008 line 50): a strictly
precedes b when its relevance score is higher, or scores are equal and its
search_count is higher. -/
def codeBefore (c : RankingConfig) (query : String) (a b : Item) : Bool :=
  decide (relevanceScore c query b < relevanceScore c query a) ||
    (decide (relevanceScore c query a = relevanceScore c query b) &&
      decide (b.search_count < a.search_count))

/-- Stable insertion of an element behind every element that strictly
precedes it. -/
def insertRanked {α : Type} (bef : α → α → Bool) (x : α) :
    List α → List α
  | [] => [x]
  | y :: ys => if bef y x then y :: insertRanked bef x ys else x :: y :: ys

/-- Stable sort by repeated ranked insertion. -/
def sortRanked {α : Type} (bef : α → α → Bool) : List α → List α
  | [] => []
  | x :: xs => insertRanked bef x (sortRanked bef xs)

/-- Ranked output: hidden items are filtered out, the rest are ordered by
the pipeline's sort keys. -/
def rankResults (c : RankingConfig) (query : String) (items : List Item) :
    List Item :=
  sortRanked (codeBefore c query) (items.filter (fun it => !(isHidden c it)))

/-! ## Sorting lemmas -/

theorem mem_insertRanked {α : Type} (bef : α → α → Bool) (x z : α)
    (l : List α) : z ∈ insertRanked bef x l ↔ z = x ∨ z ∈ l := by
  induction l with
  | nil => simp [insertRanked]
  | cons y ys ih =>
      by_cases h : bef y x
      · simp only [insertRanked, if_pos h, List.mem_cons, ih]
        tauto
      · simp only [insertRanked, if_neg h, List.mem_cons]

theorem mem_sortRanked {α : Type} (bef : α → α → Bool) (z : α)
    (l : List α) : z ∈ sortRanked bef l ↔ z ∈ l := by
  induction l with
  | nil => simp [sortRanked]
  | cons y ys ih =>
      simp [sortRanked, mem_insertRanked, ih]

theorem pairwise_insertRanked {α : Type} (bef : α → α → Bool)
    (hasym : ∀ a b, bef a b = true → bef b a = false)
    (hco : ∀ a b z, bef z a = true → bef b a = false → bef z b = true)
    (x : α) (l : List α)
    (hl : l.Pairwise (fun a b => bef b a = false)) :
    (insertRanked bef x l).Pairwise (fun a b => bef b a = false) := by
  induction l with
  | nil => simp [insertRanked]
  | cons y ys ih =>
      rcases List.pairwise_cons.mp hl with ⟨hy, hys⟩
      by_cases h : bef y x
      · simp only [insertRanked, if_pos h]
        refine List.pairwise_cons.mpr ⟨?_, ih hys⟩
        intro z hz
        rcases (mem_insertRanked bef x z ys).mp hz with hzx | hzy
        · subst hzx
          exact hasym y z h
        · exact hy z hzy
      · simp only [insertRanked, if_neg h]
        refine List.pairwise_cons.mpr ⟨?_, hl⟩
        intro z hz
        rcases List.mem_cons.mp hz with hzy | hzys
        · subst hzy
          simpa using h
        · by_contra hc
          have hzx : bef z x = true := Bool.not_eq_false _ |>.mp hc
          have : bef z y = true := hco x y z hzx (Bool.eq_false_iff.mpr h)
          have := hy z hzys
          simp_all

theorem pairwise_sortRanked {α : Type} (bef : α → α → Bool)
    (hasym : ∀ a b, bef a b = true → bef b a = false)
    (hco : ∀ a b z, bef z a = true → bef b a = false → bef z b = true)
    (l : List α) :
    (sortRanked bef l).Pairwise (fun a b => bef b a = false) := by
  induction l with
  | nil => simp [sortRanked]
  | cons y ys ih =>
      exact pairwise_insertRanked bef hasym hco y (sortRanked bef ys) ih

/-! ## Identity resolver

Modelled from the spec (section 4.1) and the design documents:
src/voting_system_diagram.md lines 54-58 and src/unnamed/part_008 lines
223-226 specify the anonymous user id as MD5 over "ip:user_agent".
The MD5 compression function below follows RFC 1321; all arithmetic is on
Nat reduced modulo 2^32. -/

/-- The 32-bit modulus. -/
def M32 : Nat := 4294967296

/-- 32-bit addition. -/
def add32 (a b : Nat) : Nat := (a + b) % M32

/-- 32-bit complement (for values below 2^32). -/
def not32 (a : Nat) : Nat := a ^^^ 4294967295

/-- 32-bit left rotation. -/
def rotl32 (x s : Nat) : Nat :=
  ((x <<< s) ||| (x >>> (32 - s))) % M32

/-- The 64 sine-derived round constants of RFC 1321. -/
def md5K : List Nat :=
  [0xd76aa478, 0xe8c7b756, 0x242070db, 0xc1bdceee,
   0xf57c0faf, 0x4787c62a, 0xa8304613, 0xfd469501,
   0x698098d8, 0x8b44f7af, 0xffff5bb1, 0x895cd7be,
   0x6b901122, 0xfd987193, 0xa679438e, 0x49b40821,
   0xf61e2562, 0xc040b340, 0x265e5a51, 0xe9b6c7aa,
   0xd62f105d, 0x02441453, 0xd8a1e681, 0xe7d3fbc8,
   0x21e1cde6, 0xc33707d6, 0xf4d50d87, 0x455a14ed,
   0xa9e3e905, 0xfcefa3f8, 0x676f02d9, 0x8d2a4c8a,
   0xfffa3942, 0x8771f681, 0x6d9d6122, 0xfde5380c,
   0xa4beea44, 0x4bdecfa9, 0xf6bb4b60, 0xbebfbc70,
   0x289b7ec6, 0xeaa127fa, 0xd4ef3085, 0x04881d05,
   0xd9d4d039, 0xe6db99e5, 0x1fa27cf8, 0xc4ac5665,
   0xf4292244, 0x432aff97, 0xab9423a7, 0xfc93a039,
   0x655b59c3, 0x8f0ccc92, 0xffeff47d, 0x85845dd1,
   0x6fa87e4f, 0xfe2ce6e0, 0xa3014314, 0x4e0811a1,
   0xf7537e82, 0xbd3af235, 0x2ad7d2bb, 0xeb86d391]

/-- The 64 per-round left-rotation amounts of RFC 1321. -/
def md5S : List Nat :=
  [7, 12, 17, 22, 7, 12, 17, 22, 7, 12, 17, 22, 7, 12, 17, 22,
   5, 9, 14, 20, 5, 9, 14, 20, 5, 9, 14, 20, 5, 9, 14, 20,
   4, 11, 16, 23, 4, 11, 16, 23, 4, 11, 16, 23, 4, 11, 16, 23,
   6, 10, 15, 21, 6, 10, 15, 21, 6, 10, 15, 21, 6, 10, 15, 21]

/-- List access with default 0. -/
def nthD (l : List Nat) (i : Nat) : Nat := l.getD i 0

/-- Running MD5 state (a, b, c, d). -/
structure MD5State where
  a : Nat
  b : Nat
  c : Nat
  d : Nat
deriving DecidableEq, Repr

/-- Round-dependent nonlinear function. -/
def md5F (i b c d : Nat) : Nat :=
  if i < 16 then (b &&& c) ||| (not32 b &&& d)
  else if i < 32 then (d &&& b) ||| (not32 d &&& c)
  else if i < 48 then b ^^^ c ^^^ d
  else c ^^^ (b ||| not32 d)

/-- Round-dependent message-word index. -/
def md5G (i : Nat) : Nat :=
  if i < 16 then i
  else if i < 32 then (5 * i + 1) % 16
  else if i < 48 then (3 * i + 5) % 16
  else (7 * i) % 16

/-- One of the 64 rounds over a 16-word message block m. -/
def md5Round (m : List Nat) (st : MD5State) (i : Nat) : MD5State :=
  let f := (md5F i st.b st.c st.d + st.a + nthD md5K i + nthD m (md5G i)) % M32
  ⟨st.d, add32 st.b (rotl32 f (nthD md5S i)), st.b, st.c⟩

/-- Process one 512-bit block and add the result into the running state. -/
def md5Chunk (st : MD5State) (m : List Nat) : MD5State :=
  let r := (List.range 64).foldl (md5Round m) st
  ⟨add32 st.a r.a, add32 st.b r.b, add32 st.c r.c, add32 st.d r.d⟩

/-- Pack four bytes into a little-endian 32-bit word. -/
def leWord (b0 b1 b2 b3 : Nat) : Nat :=
  b0 + 256 * b1 + 65536 * b2 + 16777216 * b3

/-- Group a byte list into little-endian 32-bit words. -/
def toWordsLE : List Nat → List Nat
  | b0 :: b1 :: b2 :: b3 :: rest => leWord b0 b1 b2 b3 :: toWordsLE rest
  | _ => []

/-- Split a padded byte list into 16-word blocks. -/
def md5Blocks (bytes : List Nat) : List (List Nat) :=
  (List.range (bytes.length / 64)).map
    (fun i => toWordsLE ((bytes.drop (64 * i)).take 64))

/-- RFC 1321 padding: a 0x80 byte, zeros to 56 mod 64, then the original
bit length as a little-endian 64-bit quantity. -/
def padBytes (msg : List Nat) : List Nat :=
  let len := msg.length
  let zeros := (119 - (len % 64)) % 64
  let lenBits := (len * 8) % (2 ^ 64)
  msg ++ [128] ++ List.replicate zeros 0 ++
    (List.range 8).map (fun i => (lenBits >>> (8 * i)) % 256)

/-- Initial MD5 chaining state. -/
def md5Init : MD5State := ⟨0x67452301, 0xefcdab89, 0x98badcfe, 0x10325476⟩

/-- Serialize a 32-bit word to four little-endian bytes. -/
def wordLEBytes (w : Nat) : List Nat :=
  [w % 256, (w >>> 8) % 256, (w >>> 16) % 256, (w >>> 24) % 256]

/-- MD5 digest of a byte list: sixteen bytes. -/
def md5Bytes (msg : List Nat) : List Nat :=
  let fin := (md5Blocks (padBytes msg)).foldl md5Chunk md5Init
  wordLEBytes fin.a ++ wordLEBytes fin.b ++ wordLEBytes fin.c ++
    wordLEBytes fin.d

/-- Lowercase hexadecimal digit. -/
def hexDigitChar (n : Nat) : Char :=
  if n < 10 then Char.ofNat (48 + n) else Char.ofNat (87 + n)

/-- Two-character lowercase hex encoding of one byte. -/
def byteHex (b : Nat) : List Char :=
  [hexDigitChar (b / 16), hexDigitChar (b % 16)]

/-- Lowercase hex string of a byte list. -/
def hexDigest (bytes : List Nat) : String :=
  String.mk (bytes.map byteHex).join

/-- UTF-8 encoding of one character. -/
def charUtf8 (c : Char) : List Nat :=
  let n := c.toNat
  if n < 128 then [n]
  else if n < 2048 then [192 + n / 64, 128 + n % 64]
  else if n < 65536 then
    [224 + n / 4096, 128 + (n / 64) % 64, 128 + n % 64]
  else
    [240 + n / 262144, 128 + (n / 4096) % 64, 128 + (n / 64) % 64,
     128 + n % 64]

/-- UTF-8 byte encoding of a string. -/
def strBytes (s : String) : List Nat :=
  (s.data.map charUtf8).join

/-- Modelled from the spec: the Identity Resolver (spec 4.1); per the
design documents the backend derives the anonymous user id as the MD5 hex
digest of networkAddress ++ ":" ++ clientSignature.  It is a pure function
of its two arguments: no per-process salt appears anywhere. -/
def resolveIdentity (networkAddress clientSignature : String) : String :=
  hexDigest (md5Bytes (strBytes (networkAddress ++ ":" ++ clientSignature)))

/-! ## Claim theorems -/

/-- C1: in every state of the vote/rating subsystem reachable by vote
mutations, the item's rating_score equals
(upvote_count - downvote_count) / total_vote_count when total_vote_count
is positive, and 0 when total_vote_count is zero. -/
theorem c1_rating_score_recomputation (ops : List LedgerOp) :
    (0 < (runOps ops).rating.total_votes →
      (runOps ops).rating.rating_score =
        (((runOps ops).rating.upvotes : ℚ) -
          ((runOps ops).rating.downvotes : ℚ)) /
          ((runOps ops).rating.total_votes : ℚ)) ∧
    ((runOps ops).rating.total_votes = 0 →
      (runOps ops).rating.rating_score = 0) := by
  obtain ⟨-, -, -, h4, -⟩ := inv_runOps ops
  constructor
  · intro ht
    rw [h4, computeRatingScore, if_pos ht]
  · intro ht
    rw [h4, computeRatingScore, ht]
    norm_num

/-- Witness for C1 at the concrete run of a single upvote: the positive-
and zero-total cases of the rule, each discharged at an explicit state. -/
theorem c1_rating_score_recomputation_witness :
    (runOps [LedgerOp.cast "u1" VoteValue.up]).rating.rating_score =
      (((runOps [LedgerOp.cast "u1" VoteValue.up]).rating.upvotes : ℚ) -
        ((runOps [LedgerOp.cast "u1" VoteValue.up]).rating.downvotes : ℚ)) /
        ((runOps [LedgerOp.cast "u1" VoteValue.up]).rating.total_votes : ℚ) ∧
    (runOps ([] : List LedgerOp)).rating.rating_score = 0 :=
  ⟨(c1_rating_score_recomputation [LedgerOp.cast "u1" VoteValue.up]).1
      (by decide),
   (c1_rating_score_recomputation []).2 (by decide)⟩

/-- C7: every reachable state satisfies total_vote_count = upvote_count +
downvote_count, all three counters are nonnegative, and rating_score is
exactly the pure recomputation function of the counters; reachability
quantifies over arbitrary sequences of cast, switch and retract
mutations. -/
theorem c7_counter_invariants (ops : List LedgerOp) :
    (runOps ops).rating.total_votes =
      (runOps ops).rating.upvotes + (runOps ops).rating.downvotes ∧
    0 ≤ (runOps ops).rating.upvotes ∧
    0 ≤ (runOps ops).rating.downvotes ∧
    0 ≤ (runOps ops).rating.total_votes ∧
    (runOps ops).rating.rating_score =
      computeRatingScore (runOps ops).rating.upvotes
        (runOps ops).rating.downvotes (runOps ops).rating.total_votes := by
  obtain ⟨h1, h2, h3, h4, -⟩ := inv_runOps ops
  have hu : 0 ≤ (runOps ops).rating.upvotes := by
    rw [h1]; exact Int.natCast_nonneg _
  have hd : 0 ≤ (runOps ops).rating.downvotes := by
    rw [h2]; exact Int.natCast_nonneg _
  refine ⟨h3, hu, hd, ?_, h4⟩
  rw [h3]
  omega

/-- C9: a failed vote-status check (non-OK response or thrown fetch
error) resolves to has_voted false / vote_type null, and the subsequent
vote submission is still issued: when no cooldown blocks the click,
voteOnDrug sends the POST vote request after the status read. -/
theorem c9_vote_status_failure_allows_vote
    (resp : StatusResp) (s : ClientState) (d : String) (v : VoteValue)
    (now : Int)
    (hfail : resp = StatusResp.httpError ∨ resp = StatusResp.networkError)
    (hcd : cooldownActive s d v now = false) :
    verifyVoteStatus resp = ⟨false, none⟩ ∧
    (voteOnDrug s d v now (verifyVoteStatus resp)).2 =
      [BackendReq.voteStatus d, BackendReq.vote d v false] := by
  have h1 : verifyVoteStatus resp = ⟨false, none⟩ := by
    rcases hfail with h | h <;> subst h <;> rfl
  refine ⟨h1, ?_⟩
  rw [h1]
  simp [voteOnDrug, hcd]

/-- Witness for C9: a concrete http error during the status check still
leads to the vote request for drug d1. -/
theorem c9_vote_status_failure_allows_vote_witness :
    verifyVoteStatus StatusResp.httpError = ⟨false, none⟩ ∧
    (voteOnDrug ⟨[], []⟩ "d1" VoteValue.up 0
        (verifyVoteStatus StatusResp.httpError)).2 =
      [BackendReq.voteStatus "d1", BackendReq.vote "d1" VoteValue.up false] :=
  c9_vote_status_failure_allows_vote StatusResp.httpError ⟨[], []⟩ "d1"
    VoteValue.up 0 (Or.inl rfl) rfl

/-- C10 counterexample: a second upvote click on d1 at time 2500, with a
previous accepted one at time 1000 (1500 ms earlier, inside the 2000 ms
cooldown), does return early with the client state untouched - but its
request trace is not empty: the vote-status request was already sent to
the backend before the cooldown check, so the call does not avoid sending
any backend request. -/
theorem c10_cooldown_counterexample :
    (voteOnDrug ⟨[], [(cooldownKey "d1" VoteValue.up, 1000)]⟩ "d1"
        VoteValue.up 2500 ⟨false, none⟩).2 ≠ [] ∧
    (voteOnDrug ⟨[], [(cooldownKey "d1" VoteValue.up, 1000)]⟩ "d1"
        VoteValue.up 2500 ⟨false, none⟩).2 =
      [BackendReq.voteStatus "d1"] := by
  constructor <;> decide

/-- C10 amended: when a call with the same drug id and vote type happens
less than 2000 ms after a previously accepted one, voteOnDrug returns
early leaving the cached vote state and the cooldown map unchanged and
sends no vote mutation; the read-only vote-status request issued before
the cooldown check is the only backend traffic. -/
theorem c10_cooldown_early_return (s : ClientState) (d : String)
    (v : VoteValue) (now : Int) (st : VoteStatus)
    (h : cooldownActive s d v now = true) :
    (voteOnDrug s d v now st).1 = s ∧
    (voteOnDrug s d v now st).2 = [BackendReq.voteStatus d] := by
  constructor <;> simp [voteOnDrug, h]

/-- Witness for C10 amended at the concrete cooldown state of the
counterexample scenario. -/
theorem c10_cooldown_early_return_witness :
    (voteOnDrug ⟨[], [(cooldownKey "d1" VoteValue.up, 1000)]⟩ "d1"
        VoteValue.up 2500 ⟨false, none⟩).1 =
      ⟨[], [(cooldownKey "d1" VoteValue.up, 1000)]⟩ ∧
    (voteOnDrug ⟨[], [(cooldownKey "d1" VoteValue.up, 1000)]⟩ "d1"
        VoteValue.up 2500 ⟨false, none⟩).2 =
      [BackendReq.voteStatus "d1"] :=
  c10_cooldown_early_return ⟨[], [(cooldownKey "d1" VoteValue.up, 1000)]⟩
    "d1" VoteValue.up 2500 ⟨false, none⟩ (by decide)

/-- C5 counterexample: with an existing upvote by identity u1 (state
reached by one cast), clicking upvote again is classified as an unvote and
sent as is_unvote=true; applying the emitted requests removes the vote and
zeroes the counters, so the ledger and counters are mutated, the existing
vote is removed, and the backend outcome is Removed rather than
Unchanged. -/
theorem c5_same_vote_counterexample :
    (voteOnDrug ⟨[("d1", VoteValue.up)], []⟩ "d1" VoteValue.up 0
        ⟨true, some VoteValue.up⟩).2 =
      [BackendReq.voteStatus "d1", BackendReq.vote "d1" VoteValue.up true] ∧
    applyReqs (runOps [LedgerOp.cast "u1" VoteValue.up]) "u1"
        (voteOnDrug ⟨[("d1", VoteValue.up)], []⟩ "d1" VoteValue.up 0
          ⟨true, some VoteValue.up⟩).2 ≠
      runOps [LedgerOp.cast "u1" VoteValue.up] ∧
    lookupKey (applyReqs (runOps [LedgerOp.cast "u1" VoteValue.up]) "u1"
        (voteOnDrug ⟨[("d1", VoteValue.up)], []⟩ "d1" VoteValue.up 0
          ⟨true, some VoteValue.up⟩).2).votes "u1" = none ∧
    (retractVote (runOps [LedgerOp.cast "u1" VoteValue.up]) "u1").2 =
      Outcome.removed := by
  refine ⟨by decide, by decide, by decide, by decide⟩

/-- C5 amended: for a pair that already holds a vote, submitting the same
vote value again is treated as a retraction, not an idempotent no-op: the
frontend sets is_unvote, drops the cached entry, and the backend removes
the existing vote and decrements the matching counter and the total (no
error is raised in this flow). -/
theorem c5_same_vote_unvotes (s : ClientState) (bs : ItemState)
    (d uid : String) (v : VoteValue) (now : Int)
    (hcd : cooldownActive s d v now = false)
    (hv : lookupKey bs.votes uid = some v) :
    (voteOnDrug s d v now ⟨true, some v⟩).2 =
      [BackendReq.voteStatus d, BackendReq.vote d v true] ∧
    (voteOnDrug s d v now ⟨true, some v⟩).1.voteStates =
      removeKey s.voteStates d ∧
    (applyReqs bs uid (voteOnDrug s d v now ⟨true, some v⟩).2).rating =
      recompute (bs.rating.upvotes - (voteDelta v).1)
        (bs.rating.downvotes - (voteDelta v).2)
        (bs.rating.total_votes - 1) ∧
    (applyReqs bs uid (voteOnDrug s d v now ⟨true, some v⟩).2).votes =
      removeKey bs.votes uid := by
  have hreq : (voteOnDrug s d v now ⟨true, some v⟩).2 =
      [BackendReq.voteStatus d, BackendReq.vote d v true] := by
    simp [voteOnDrug, hcd]
  have hst : (voteOnDrug s d v now ⟨true, some v⟩).1.voteStates =
      removeKey s.voteStates d := by
    simp [voteOnDrug, hcd]
  refine ⟨hreq, hst, ?_, ?_⟩ <;>
    rw [hreq] <;>
    simp [applyReqs, applyReq, retractVote, hv]

/-- Witness for C5 amended at the concrete one-upvote state. -/
theorem c5_same_vote_unvotes_witness :
    (voteOnDrug ⟨[("d1", VoteValue.up)], []⟩ "d1" VoteValue.up 0
        ⟨true, some VoteValue.up⟩).2 =
      [BackendReq.voteStatus "d1", BackendReq.vote "d1" VoteValue.up true] ∧
    (voteOnDrug ⟨[("d1", VoteValue.up)], []⟩ "d1" VoteValue.up 0
        ⟨true, some VoteValue.up⟩).1.voteStates =
      removeKey [("d1", VoteValue.up)] "d1" ∧
    (applyReqs ⟨[("u1", VoteValue.up)], ⟨1, 0, 1, 1⟩⟩ "u1"
        (voteOnDrug ⟨[("d1", VoteValue.up)], []⟩ "d1" VoteValue.up 0
          ⟨true, some VoteValue.up⟩).2).rating =
      recompute (1 - (voteDelta VoteValue.up).1)
        (0 - (voteDelta VoteValue.up).2) (1 - 1) ∧
    (applyReqs ⟨[("u1", VoteValue.up)], ⟨1, 0, 1, 1⟩⟩ "u1"
        (voteOnDrug ⟨[("d1", VoteValue.up)], []⟩ "d1" VoteValue.up 0
          ⟨true, some VoteValue.up⟩).2).votes =
      removeKey [("u1", VoteValue.up)] "u1" :=
  c5_same_vote_unvotes ⟨[("d1", VoteValue.up)], []⟩
    ⟨[("u1", VoteValue.up)], ⟨1, 0, 1, 1⟩⟩ "d1" "u1" VoteValue.up 0
    rfl rfl

/-- C2 counterexample: with an existing upvote by identity u1, switching
to a downvote is not a single overwrite-in-place: the frontend emits two
vote mutations (an unvote of the old value, then a vote of the new), the
first step's outcome is Removed rather than Switched, and after that
first step the pair holds zero active votes (total_vote_count 0), so the
switch does pass through a zero-vote intermediate state. -/
theorem c2_switch_counterexample :
    (voteOnDrug ⟨[("d1", VoteValue.up)], []⟩ "d1" VoteValue.down 0
        ⟨true, some VoteValue.up⟩).2 =
      [BackendReq.voteStatus "d1", BackendReq.vote "d1" VoteValue.up true,
       BackendReq.vote "d1" VoteValue.down false] ∧
    (retractVote (runOps [LedgerOp.cast "u1" VoteValue.up]) "u1").2 =
      Outcome.removed ∧
    lookupKey (retractVote (runOps [LedgerOp.cast "u1" VoteValue.up])
        "u1").1.votes "u1" = none ∧
    (retractVote (runOps [LedgerOp.cast "u1" VoteValue.up])
        "u1").1.rating.total_votes = 0 := by
  refine ⟨by decide, by decide, by decide, by decide⟩

/-- C2 amended: the Up-to-Down switch is performed as two sequential
mutations (unvote of the old value, then vote of the new).  Its net effect
decreases upvote_count by 1, increases downvote_count by 1 and leaves
total_vote_count unchanged, but between the two steps the pair transiently
holds zero active votes. -/
theorem c2_switch_net_effect (s : ClientState) (bs : ItemState)
    (d uid : String) (now : Int)
    (hcd : cooldownActive s d VoteValue.down now = false)
    (hv : lookupKey bs.votes uid = some VoteValue.up)
    (hnd : nodupKeys bs.votes = true) :
    (voteOnDrug s d VoteValue.down now ⟨true, some VoteValue.up⟩).2 =
      [BackendReq.voteStatus d, BackendReq.vote d VoteValue.up true,
       BackendReq.vote d VoteValue.down false] ∧
    (applyReqs bs uid (voteOnDrug s d VoteValue.down now
        ⟨true, some VoteValue.up⟩).2).rating.upvotes =
      bs.rating.upvotes - 1 ∧
    (applyReqs bs uid (voteOnDrug s d VoteValue.down now
        ⟨true, some VoteValue.up⟩).2).rating.downvotes =
      bs.rating.downvotes + 1 ∧
    (applyReqs bs uid (voteOnDrug s d VoteValue.down now
        ⟨true, some VoteValue.up⟩).2).rating.total_votes =
      bs.rating.total_votes ∧
    lookupKey (retractVote bs uid).1.votes uid = none := by
  have hreq : (voteOnDrug s d VoteValue.down now
      ⟨true, some VoteValue.up⟩).2 =
      [BackendReq.voteStatus d, BackendReq.vote d VoteValue.up true,
       BackendReq.vote d VoteValue.down false] := by
    simp [voteOnDrug, hcd]
  have hmid : lookupKey (retractVote bs uid).1.votes uid = none := by
    simp only [retractVote, hv]
    exact lookupKey_removeKey_self bs.votes uid hnd
  have happ : applyReqs bs uid [BackendReq.voteStatus d,
      BackendReq.vote d VoteValue.up true,
      BackendReq.vote d VoteValue.down false] =
      (castOrUpdate (retractVote bs uid).1 uid VoteValue.down).1 := by
    simp [applyReqs, applyReq]
  have hmid' : lookupKey (removeKey bs.votes uid) uid = none :=
    lookupKey_removeKey_self bs.votes uid hnd
  have hret : (retractVote bs uid).1 =
      ⟨removeKey bs.votes uid,
        recompute (bs.rating.upvotes - 1) bs.rating.downvotes
          (bs.rating.total_votes - 1)⟩ := by
    simp [retractVote, hv, voteDelta, recompute]
  refine ⟨hreq, ?_, ?_, ?_, hmid⟩ <;>
    rw [hreq, happ, hret] <;>
    simp [castOrUpdate, hmid', recompute, voteDelta] <;>
    ring

/-- Witness for C2 amended at the concrete one-upvote state. -/
theorem c2_switch_net_effect_witness :
    (voteOnDrug ⟨[("d1", VoteValue.up)], []⟩ "d1" VoteValue.down 0
        ⟨true, some VoteValue.up⟩).2 =
      [BackendReq.voteStatus "d1", BackendReq.vote "d1" VoteValue.up true,
       BackendReq.vote "d1" VoteValue.down false] ∧
    (applyReqs ⟨[("u1", VoteValue.up)], ⟨1, 0, 1, 1⟩⟩ "u1"
        (voteOnDrug ⟨[("d1", VoteValue.up)], []⟩ "d1" VoteValue.down 0
          ⟨true, some VoteValue.up⟩).2).rating.upvotes = 1 - 1 ∧
    (applyReqs ⟨[("u1", VoteValue.up)], ⟨1, 0, 1, 1⟩⟩ "u1"
        (voteOnDrug ⟨[("d1", VoteValue.up)], []⟩ "d1" VoteValue.down 0
          ⟨true, some VoteValue.up⟩).2).rating.downvotes = 0 + 1 ∧
    (applyReqs ⟨[("u1", VoteValue.up)], ⟨1, 0, 1, 1⟩⟩ "u1"
        (voteOnDrug ⟨[("d1", VoteValue.up)], []⟩ "d1" VoteValue.down 0
          ⟨true, some VoteValue.up⟩).2).rating.total_votes = 1 ∧
    lookupKey (retractVote ⟨[("u1", VoteValue.up)], ⟨1, 0, 1, 1⟩⟩
        "u1").1.votes "u1" = none :=
  c2_switch_net_effect ⟨[("d1", VoteValue.up)], []⟩
    ⟨[("u1", VoteValue.up)], ⟨1, 0, 1, 1⟩⟩ "d1" "u1" 0 rfl rfl rfl

/-! ## Ordering lemmas for the pipeline sort -/

theorem codeBefore_true_iff (c : RankingConfig) (q : String) (a b : Item) :
    codeBefore c q a b = true ↔
      (relevanceScore c q b < relevanceScore c q a ∨
        (relevanceScore c q a = relevanceScore c q b ∧
          b.search_count < a.search_count)) := by
  simp [codeBefore]

theorem codeBefore_asym (c : RankingConfig) (q : String) (a b : Item)
    (h : codeBefore c q a b = true) : codeBefore c q b a = false := by
  rw [codeBefore_true_iff] at h
  rw [Bool.eq_false_iff, Ne, codeBefore_true_iff]
  rintro (h' | ⟨he', hs'⟩) <;> rcases h with h | ⟨he, hs⟩
  · linarith
  · linarith
  · linarith
  · omega

theorem codeBefore_cotrans (c : RankingConfig) (q : String) (a b z : Item)
    (h1 : codeBefore c q z a = true) (h2 : codeBefore c q b a = false) :
    codeBefore c q z b = true := by
  rw [codeBefore_true_iff] at h1 ⊢
  rw [Bool.eq_false_iff, Ne, codeBefore_true_iff] at h2
  push_neg at h2
  obtain ⟨hle, himp⟩ := h2
  rcases h1 with h | ⟨he, hs⟩
  · exact Or.inl (lt_of_le_of_lt hle h)
  · rcases lt_or_eq_of_le hle with hb | hb
    · exact Or.inl (by linarith)
    · refine Or.inr ⟨he.trans hb.symm, ?_⟩
      have h3 := himp hb
      omega

/-! ## Concrete scenario items -/

/-- Boundary item of C3: rating exactly -0.5 but only 2 votes. -/
def itemLowConfidence : Item :=
  ⟨"Metformin ER", DrugType.combination, -(1 / 2), 2, 0⟩

/-- Boundary item of C3: rating -0.6 with 3 votes. -/
def itemHiddenCase : Item :=
  ⟨"Metformin XR", DrugType.combination, -(3 / 5), 3, 0⟩

/-- Item A of the C4 scenario: Primary (generic) tier, no votes. -/
def itemA : Item := ⟨"Metformin", DrugType.generic, 0, 0, 0⟩

/-- Item B of the C4 scenario before voting: Compound (combination) tier,
no votes. -/
def itemB : Item := ⟨"Metformin ER", DrugType.combination, 0, 0, 0⟩

/-- Item B of the C4 scenario after 5 upvotes: rating_score 1.0, 5
votes. -/
def itemBVoted : Item := ⟨"Metformin ER", DrugType.combination, 1, 5, 0⟩

/-- C6 counterexample item X: name-start match, Compound tier, no votes,
search_count 3; total score 110. -/
def itemX : Item := ⟨"Metformin ER", DrugType.combination, 0, 0, 3⟩

/-- C6 counterexample item Y: no name-start match, Primary tier, rating
0.8 over 10 votes (social proof applies), search_count 7; total score
110. -/
def itemY : Item := ⟨"Glipizide Metformin", DrugType.generic, 4 / 5, 10, 7⟩

/-- C3: an item of the candidate set is excluded from the ranked output
exactly when rating_score is at most -0.5 and total_vote_count is at
least 3; in particular the -0.5-rating/2-vote item still appears in the
output and the -0.6-rating/3-vote item does not. -/
theorem c3_auto_hide_iff (it : Item) (items : List Item) (query : String)
    (hmem : it ∈ items) :
    ((it ∉ rankResults defaultConfig query items) ↔
      (it.rating_score ≤ -(1 / 2 : ℚ) ∧ (3 : Int) ≤ it.total_votes)) ∧
    itemLowConfidence ∈
      rankResults defaultConfig query [itemLowConfidence] ∧
    itemHiddenCase ∉ rankResults defaultConfig query [itemHiddenCase] := by
  refine ⟨?_, ?_, ?_⟩
  · rw [rankResults, mem_sortRanked, List.mem_filter]
    simp [isHidden, defaultConfig, hmem]
  · rw [rankResults, mem_sortRanked, List.mem_filter]
    refine ⟨List.mem_singleton_self _, ?_⟩
    simp [isHidden, defaultConfig, itemLowConfidence]
  · rw [rankResults, mem_sortRanked, List.mem_filter]
    simp [isHidden, defaultConfig, itemHiddenCase]
    norm_num

/-- Witness for C3 at a singleton candidate set containing the hidden
boundary item. -/
theorem c3_auto_hide_iff_witness :
    ((itemHiddenCase ∉ rankResults defaultConfig "met" [itemHiddenCase]) ↔
      (itemHiddenCase.rating_score ≤ -(1 / 2 : ℚ) ∧
        (3 : Int) ≤ itemHiddenCase.total_votes)) ∧
    itemLowConfidence ∈
      rankResults defaultConfig "met" [itemLowConfidence] ∧
    itemHiddenCase ∉ rankResults defaultConfig "met" [itemHiddenCase] :=
  c3_auto_hide_iff itemHiddenCase [itemHiddenCase] "met"
    (List.mem_singleton_self _)

/-- C4: with the documented constants, the Primary no-vote item A scores
130 and the Compound no-vote item B scores 110 for query "met" (both
name-start matches) and A ranks first; after 5 upvotes B's score is
50 + 50 + 10 + 25 + 10 = 145 and B outranks A. -/
theorem c4_concrete_scoring_scenario :
    matchesStart "met" itemA.name = true ∧
    matchesStart "met" itemB.name = true ∧
    relevanceScore defaultConfig "met" itemA = 130 ∧
    relevanceScore defaultConfig "met" itemB = 110 ∧
    rankResults defaultConfig "met" [itemA, itemB] = [itemA, itemB] ∧
    relevanceScore defaultConfig "met" itemBVoted = 50 + 50 + 10 + 25 + 10 ∧
    rankResults defaultConfig "met" [itemA, itemBVoted] =
      [itemBVoted, itemA] := by
  have hmA : matchesStart "met" itemA.name = true := by decide
  have hmB : matchesStart "met" itemB.name = true := by decide
  have hmBV : matchesStart "met" itemBVoted.name = true := by decide
  have hA : relevanceScore defaultConfig "met" itemA = 130 := by
    rw [relevanceScore, if_pos hmA]
    norm_num [defaultConfig, itemA, typeWeight]
  have hB : relevanceScore defaultConfig "met" itemB = 110 := by
    rw [relevanceScore, if_pos hmB]
    norm_num [defaultConfig, itemB, typeWeight]
  have hBV : relevanceScore defaultConfig "met" itemBVoted = 145 := by
    rw [relevanceScore, if_pos hmBV]
    norm_num [defaultConfig, itemBVoted, typeWeight]
  have hnhA : isHidden defaultConfig itemA = false := by
    simp only [isHidden, defaultConfig, itemA, Bool.and_eq_false_iff,
      decide_eq_false_iff_not]
    right
    norm_num
  have hnhB : isHidden defaultConfig itemB = false := by
    simp only [isHidden, defaultConfig, itemB, Bool.and_eq_false_iff,
      decide_eq_false_iff_not]
    right
    norm_num
  have hnhBV : isHidden defaultConfig itemBVoted = false := by
    simp only [isHidden, defaultConfig, itemBVoted, Bool.and_eq_false_iff,
      decide_eq_false_iff_not]
    left
    norm_num
  have hBA : codeBefore defaultConfig "met" itemB itemA = false := by
    apply codeBefore_asym
    rw [codeBefore_true_iff, hA, hB]
    left
    norm_num
  have hBVA : codeBefore defaultConfig "met" itemBVoted itemA = true := by
    rw [codeBefore_true_iff, hA, hBV]
    left
    norm_num
  refine ⟨hmA, hmB, hA, hB, ?_, by rw [hBV]; norm_num, ?_⟩
  · simp [rankResults, List.filter, hnhA, hnhB, sortRanked, insertRanked,
      hBA]
  · simp [rankResults, List.filter, hnhA, hnhBV, sortRanked, insertRanked,
      hBVA]

/-- C6 counterexample: items X and Y tie at total score 110; X is the
name-start match (and comes first in the input), Y has the higher
search_count.  The pipeline sort puts Y first, so equal-score ties are
not broken by prefix match, category weight, vote count or input order. -/
theorem c6_tiebreak_counterexample :
    relevanceScore defaultConfig "met" itemX = 110 ∧
    relevanceScore defaultConfig "met" itemY = 110 ∧
    matchesStart "met" itemX.name = true ∧
    matchesStart "met" itemY.name = false ∧
    itemY.total_votes > itemX.total_votes ∧
    rankResults defaultConfig "met" [itemX, itemY] = [itemY, itemX] := by
  have hmX : matchesStart "met" itemX.name = true := by decide
  have hmY : matchesStart "met" itemY.name = false := by decide
  have hX : relevanceScore defaultConfig "met" itemX = 110 := by
    rw [relevanceScore, if_pos hmX]
    norm_num [defaultConfig, itemX, typeWeight]
  have hY : relevanceScore defaultConfig "met" itemY = 110 := by
    rw [relevanceScore, if_neg (by simp [hmY])]
    norm_num [defaultConfig, itemY, typeWeight]
  have hnhX : isHidden defaultConfig itemX = false := by
    simp only [isHidden, defaultConfig, itemX, Bool.and_eq_false_iff,
      decide_eq_false_iff_not]
    left
    norm_num
  have hnhY : isHidden defaultConfig itemY = false := by
    simp only [isHidden, defaultConfig, itemY, Bool.and_eq_false_iff,
      decide_eq_false_iff_not]
    left
    norm_num
  have hYX : codeBefore defaultConfig "met" itemY itemX = true := by
    rw [codeBefore_true_iff, hX, hY]
    refine Or.inr ⟨rfl, ?_⟩
    norm_num [itemX, itemY]
  refine ⟨hX, hY, hmX, hmY, by norm_num [itemX, itemY], ?_⟩
  simp [rankResults, List.filter, hnhX, hnhY, sortRanked, insertRanked,
    hYX]

/-- C6 amended: the ranked output is ordered by total relevance score
descending, and candidates with equal total scores are ordered by higher
search_count; no prefix/category/vote-count cascade applies beyond their
contribution to the total score. -/
theorem c6_sorted_by_score_then_search_count (c : RankingConfig)
    (query : String) (items : List Item) :
    (rankResults c query items).Pairwise
      (fun a b => relevanceScore c query b < relevanceScore c query a ∨
        (relevanceScore c query a = relevanceScore c query b ∧
          b.search_count ≤ a.search_count)) := by
  have h := pairwise_sortRanked (codeBefore c query)
    (codeBefore_asym c query) (codeBefore_cotrans c query)
    (items.filter (fun it => !(isHidden c it)))
  refine List.Pairwise.imp ?_ h
  intro a b hab
  rw [Bool.eq_false_iff, Ne, codeBefore_true_iff] at hab
  push_neg at hab
  obtain ⟨hle, himp⟩ := hab
  rcases lt_or_eq_of_le hle with hb | hb
  · exact Or.inl hb
  · exact Or.inr ⟨hb.symm, himp hb⟩

/-! ## Identity resolver lemmas -/

theorem length_md5Bytes (msg : List Nat) : (md5Bytes msg).length = 16 := by
  simp [md5Bytes, wordLEBytes]

theorem md5Bytes_lt_256 (msg : List Nat) :
    ∀ b ∈ md5Bytes msg, b < 256 := by
  intro b hb
  simp only [md5Bytes, wordLEBytes, List.mem_append, List.mem_cons,
    List.not_mem_nil, or_false] at hb
  omega

theorem length_hexDigest (bytes : List Nat) :
    (hexDigest bytes).length = 2 * bytes.length := by
  have hjoin : ((bytes.map byteHex).join).length = 2 * bytes.length := by
    induction bytes with
    | nil => simp
    | cons b bs ih =>
        simp only [List.map_cons, List.join_cons, List.length_append, ih,
          byteHex, List.length_cons, List.length_nil]
        omega
  simpa [hexDigest, String.length] using hjoin

/-- C8: the identity resolver is a deterministic pure function of the
network address and the client signature: equal inputs always produce
equal tokens (no per-process salt occurs anywhere in the derivation), and
the token is the 32-hex-character encoding of a 16-byte MD5 digest, so it
is drawn from a hash space of exactly 2^128 values. -/
theorem c8_identity_deterministic_128bit
    (a1 s1 a2 s2 : String) (ha : a1 = a2) (hs : s1 = s2) :
    resolveIdentity a1 s1 = resolveIdentity a2 s2 ∧
    (md5Bytes (strBytes (a1 ++ ":" ++ s1))).length = 16 ∧
    (∀ b ∈ md5Bytes (strBytes (a1 ++ ":" ++ s1)), b < 256) ∧
    (resolveIdentity a1 s1).length = 32 := by
  subst ha
  subst hs
  refine ⟨rfl, length_md5Bytes _, md5Bytes_lt_256 _, ?_⟩
  rw [resolveIdentity, length_hexDigest, length_md5Bytes]

/-- Witness for C8 at the design document's concrete inputs: the same
address and user agent resolve to the same token, of 32 hex characters
over a 16-byte digest. -/
theorem c8_identity_deterministic_128bit_witness :
    resolveIdentity "127.0.0.1" "Mozilla/5.0" =
      resolveIdentity "127.0.0.1" "Mozilla/5.0" ∧
    (md5Bytes (strBytes ("127.0.0.1" ++ ":" ++ "Mozilla/5.0"))).length =
      16 ∧
    (∀ b ∈ md5Bytes (strBytes ("127.0.0.1" ++ ":" ++ "Mozilla/5.0")),
      b < 256) ∧
    (resolveIdentity "127.0.0.1" "Mozilla/5.0").length = 32 :=
  c8_identity_deterministic_128bit "127.0.0.1" "Mozilla/5.0" "127.0.0.1"
    "Mozilla/5.0" rfl rfl

end RxVerify
